import Mathlib

/-!
Verification of the file scanner core (pkg/file/scan.go) against its
natural-language specification.  The Go code is embedded shallowly:
pure functions become Lean functions, the scanner's collaborators
(catalog gateway, filesystem adapter, fingerprint calculator,
decorators, handlers) become function-valued fields of an environment
record, and each scanner operation returns its result together with an
explicit trace of effects (catalog writes, handler invocations, log
emissions tagged with how they were emitted).
-/

/-- Modelled from the spec: models.Fingerprint is not under src.  A typed
digest: a type name and an opaque value (spec section 3). -/
structure Fingerprint where
  fpType : String
  value : Nat
deriving DecidableEq, Repr

/-- Fingerprint type constant for oshash (models.FingerprintTypeOshash). -/
def FingerprintTypeOshash : String := "oshash"

/-- Fingerprint type constant for MD5 (models.FingerprintTypeMD5). -/
def FingerprintTypeMD5 : String := "md5"

/-- Modelled from the spec: models.Fingerprints.For is not under src.  Returns
the fingerprint of the given type, of which there is at most one per file
(spec section 3: a set keyed by fingerprint type). -/
def fingerprintsFor (fps : List Fingerprint) (t : String) : Option Fingerprint :=
  fps.find? (fun f => f.fpType == t)

/-- Modelled from the spec: models.Fingerprints.Remove is not under src.
Removes the fingerprint of the given type. -/
def fingerprintsRemove (fps : List Fingerprint) (t : String) : List Fingerprint :=
  fps.filter (fun f => f.fpType != t)

/-- Modelled from the spec: models.Fingerprints.AppendUnique is not under src.
Inserts a fingerprint, replacing any existing value of the same type, per the
at-most-one-value-per-type invariant of spec section 3. -/
def appendUnique : List Fingerprint → Fingerprint → List Fingerprint
  | [], o => [o]
  | ff :: rest, o =>
      if ff.fpType = o.fpType then o :: rest else ff :: appendUnique rest o

/-- Modelled from the spec: models.BaseFile.SetFingerprints is not under src.
Applies a computed fingerprint set to a stored set, replacing values per type
and retaining stored values of types the computed set lacks (this retention is
what the removal of outdated MD5 values in scan.go compensates for). -/
def setFingerprints (cur : List Fingerprint) (fps : List Fingerprint) : List Fingerprint :=
  fps.foldl appendUnique cur

/-- Modelled from the spec: models.Fingerprints.ContentsChanged is not under
src.  True when the computed set differs in contents from the stored set
(spec section 4.D.2). -/
def contentsChanged (new cur : List Fingerprint) : Bool :=
  !(new.all (fun x => cur.contains x) && cur.all (fun x => new.contains x))

/-- Modelled from the spec: models.BaseFile is not under src.  The catalog
file row: identity, location, on-disk attributes and fingerprints
(spec section 3). -/
structure BaseFile where
  id : Nat
  path : String
  basename : String
  parentFolderID : Nat
  zipFileID : Option Nat
  size : Nat
  modTime : Nat
  fingerprints : List Fingerprint
  createdAt : Nat
  updatedAt : Nat
deriving DecidableEq, Repr

/-- Modelled from the spec: models.Folder is not under src.  The catalog
folder row (spec section 3). -/
structure Folder where
  id : Nat
  path : String
  parentFolderID : Option Nat
  zipFileID : Option Nat
  modTime : Nat
  createdAt : Nat
  updatedAt : Nat
deriving DecidableEq, Repr

/-- A file being scanned: the on-disk snapshot carried by ScannedFile.  In the
source ScannedFile embeds the BaseFile snapshot; the FS handle lives in the
environment here. -/
abbrev ScannedFile := BaseFile

/-- Log messages of scan.go, abstracted from their format strings. -/
inductive LogMsg
  | creatingNewFolder (path : String)
  | folderMoved (oldPath newPath : String)
  | fileMoved (oldPath newPath : String)
  | updatedRescanning (path : String)
  | rescanningForced (path : String)
  | updatingMetadata (path : String)
deriving DecidableEq, Repr

/-- How a log line is emitted: directly inside the transaction body, or
registered as a post-commit hook. -/
inductive LogMode
  | inline
  | postCommitHook
deriving DecidableEq, Repr

/-- Observable effects of a scan operation, recorded in order. -/
inductive Effect
  | log (mode : LogMode) (msg : LogMsg)
  | createFolder (f : Folder)
  | updateFolder (f : Folder)
  | createFile (f : BaseFile)
  | updateFile (f : BaseFile)
  | fireHandler (f : BaseFile) (old : Option BaseFile)
  | calcFingerprints (path : String) (useExisting : Bool)
  | decorateFile (path : String)
  | detectFolderMoveProbe (path : String)
  | fixSubFolderHierarchy (oldPath newPath : String)
  | transferZipHierarchy (fileID : Nat) (oldPath newPath : String)
deriving DecidableEq, Repr

/-- Errors surfaced by the scanner. -/
inductive Err
  | parentFolderMissing (path : String)
  | fingerprintCalc (path : String)
  | decorator (path : String)
  | handler
deriving DecidableEq, Repr

/-- Result-with-trace monad for the embedding: an operation either succeeds or
fails, and in both cases carries the effects performed so far. -/
abbrev M (α : Type) := Except Err α × List Effect

/-- Sequencing for M: on success continue, accumulating traces; on error stop,
keeping the trace so far. -/
def mbind {α β : Type} (x : M α) (g : α → M β) : M β :=
  match x.1 with
  | Except.ok a => ((g a).1, x.2 ++ (g a).2)
  | Except.error e => (Except.error e, x.2)

/-- Emits effects and succeeds. -/
def emitM (effs : List Effect) : M Unit :=
  (Except.ok (), effs)

/-- A file decorator (Decorator interface): may substitute the file or fail;
also reports missing metadata. -/
structure Decorator where
  decorate : BaseFile → Option BaseFile
  isMissingMetadata : BaseFile → Bool

/-- A file handler (Handler interface): receives the new file and the old one,
may fail. -/
structure Handler where
  handle : BaseFile → Option BaseFile → Bool

/-- The scanner together with its collaborators: catalog queries, filesystem
probes, fingerprint calculator, filters, decorators and handlers, mirroring
the Scanner struct and the interfaces it consumes. -/
structure ScanEnv where
  findFileByPath : String → Bool → Option BaseFile
  findFilesByFingerprint : Fingerprint → List BaseFile
  findFolderByPath : String → Bool → Option Folder
  folderCache : String → Option Nat
  isPathCaseSensitive : String → Bool
  getFileFSOk : BaseFile → Bool
  lstatOk : BaseFile → Bool
  lstatFolderOk : String → Bool
  folderMoveCandidates : String → List Folder
  calculateFingerprints : BaseFile → Bool → Option (List Fingerprint)
  scanFilters : List (String → Bool)
  handlerRequiredFilters : List (BaseFile → Bool)
  fileDecorators : List Decorator
  fileHandlers : List Handler
  zipFileExtensions : List String
  rescan : Bool
  now : Nat

/-- strings.EqualFold, restricted to the simple case folding of toLower,
computed characterwise. -/
def equalFold (a b : String) : Bool :=
  a.data.map Char.toLower == b.data.map Char.toLower

/-- filepath.Ext applied to a basename: the suffix from the final dot,
including the dot; empty when there is no dot.  Computed characterwise. -/
def extName (s : String) : String :=
  let tail := s.data.reverse.takeWhile (fun c => c ≠ '.')
  if tail.length = s.data.length then "" else String.mk ('.' :: tail.reverse)

/-- filepath.Dir: the directory component of a path, computed
characterwise. -/
def dirPath (s : String) : String :=
  let pre := (s.data.reverse.dropWhile (fun c => c ≠ '/')).reverse
  if pre = [] then "." else if pre = ['/'] then "/" else String.mk pre.dropLast

/-- Scanner.IsZipFile: the extension matches a configured zip extension,
case-insensitively. -/
def isZipFile (env : ScanEnv) (path : String) : Bool :=
  env.zipFileExtensions.any (fun e => equalFold (extName path) ("." ++ e))

/-- Scanner.AcceptEntry: accept when no scan filters are configured or any
filter accepts. -/
def acceptEntry (env : ScanEnv) (path : String) : Bool :=
  env.scanFilters.isEmpty || env.scanFilters.any (fun fl => fl path)

/-- Scanner.isHandlerRequired: accept when no handler-required filters are
configured or any filter accepts. -/
def isHandlerRequired (env : ScanEnv) (f : BaseFile) : Bool :=
  env.handlerRequiredFilters.isEmpty || env.handlerRequiredFilters.any (fun fl => fl f)

/-- Scanner.getFolderID: consult the path-to-id cache first, then the catalog
with a case-sensitive lookup. -/
def getFolderID (env : ScanEnv) (path : String) : Option Nat :=
  match env.folderCache path with
  | some v => some v
  | none => (env.findFolderByPath path true).map (fun f => f.id)

/-- appendFileUnique: append files not already present, compared by id. -/
def appendFileUnique (v : List BaseFile) (toAdd : List BaseFile) : List BaseFile :=
  toAdd.foldl (fun acc f => if acc.any (fun vv => vv.id == f.id) then acc else acc ++ [f]) v

/-- Scanner.fireDecorators: run each decorator in order, stopping at the first
failure. -/
def fireDecoratorsAux : List Decorator → BaseFile → M BaseFile
  | [], f => (Except.ok f, [])
  | d :: rest, f =>
      match d.decorate f with
      | some r =>
          match fireDecoratorsAux rest r with
          | (res, tr) => (res, Effect.decorateFile f.path :: tr)
      | none => (Except.error (Err.decorator f.path), [Effect.decorateFile f.path])

/-- Scanner.fireDecorators over the configured decorator list. -/
def fireDecorators (env : ScanEnv) (f : BaseFile) : M BaseFile :=
  fireDecoratorsAux env.fileDecorators f

/-- Scanner.fireHandlers: run each handler in order, stopping at the first
failure. -/
def fireHandlersAux : List Handler → BaseFile → Option BaseFile → M Unit
  | [], _, _ => (Except.ok (), [])
  | h :: rest, f, old =>
      if h.handle f old then
        match fireHandlersAux rest f old with
        | (res, tr) => (res, Effect.fireHandler f old :: tr)
      else (Except.error Err.handler, [])

/-- Scanner.fireHandlers over the configured handler list. -/
def fireHandlers (env : ScanEnv) (f : BaseFile) (old : Option BaseFile) : M Unit :=
  fireHandlersAux env.fileHandlers f old

/-- Scanner.calculateFingerprints: invoke the fingerprint calculator, recording
the invocation; failure is fatal for the file. -/
def calculateFingerprintsM (env : ScanEnv) (f : BaseFile) (path : String)
    (useExisting : Bool) : M (List Fingerprint) :=
  (match env.calculateFingerprints f useExisting with
   | some fp => Except.ok fp
   | none => Except.error (Err.fingerprintCalc path),
   [Effect.calcFingerprints path useExisting])

/-- The zip-scope test of handleRename: a candidate is skipped iff it carries a
zip file id and the scanned file carries none or a different one (scan.go
lines 546-552); kept otherwise. -/
def renameCandidateKept (fZip oZip : Option Nat) : Bool :=
  match oZip with
  | none => true
  | some z =>
      match fZip with
      | none => false
      | some fz => z == fz

/-- The missing-on-disk probe of handleRename for one candidate: missing when
the containing FS cannot be opened, when lstat fails, when the path is a
case-insensitive match for the new path on a case-insensitive FS, or when the
candidate is no longer accepted by the scan filters (scan.go lines 554-578). -/
def candidateMissing (env : ScanEnv) (f : BaseFile) (other : BaseFile) : Bool :=
  if !(env.getFileFSOk other) then true
  else if !(env.lstatOk other) then true
  else if equalFold f.path other.path then !(env.isPathCaseSensitive other.path)
  else if !(acceptEntry env other.path) then true
  else false

/-- The candidate loop of handleRename: candidates surviving the zip-scope
test and reported missing by the probe, in catalog iteration order. -/
def missingFiles (env : ScanEnv) (f : BaseFile) (others : List BaseFile) : List BaseFile :=
  others.filter (fun other =>
    renameCandidateKept f.zipFileID other.zipFileID && candidateMissing env f other)

/-- Fingerprint-candidate collection of handleRename: files sharing any of the
computed fingerprints, deduplicated by id. -/
def collectRenameCandidates (env : ScanEnv) (fp : List Fingerprint) : List BaseFile :=
  fp.foldl (fun acc tfp => appendFileUnique acc (env.findFilesByFingerprint tfp)) []

/-- The in-place update of the chosen rename candidate (scan.go lines
592-605): the new snapshot, with the id, created_at and fingerprint set of
the existing row restored. -/
def renamedRow (f c : BaseFile) : BaseFile :=
  { f with id := c.id, createdAt := c.createdAt, fingerprints := c.fingerprints }

/-- Scanner.handleRename: detect whether a file with no catalog row is a
rename of a missing candidate sharing a fingerprint; if so update the first
missing candidate in place, transfer the zip hierarchy for renamed zip files,
and fire handlers. -/
def handleRename (env : ScanEnv) (f : BaseFile) (fp : List Fingerprint) : M (Option BaseFile) :=
  let others := collectRenameCandidates env fp
  match missingFiles env f others with
  | [] => (Except.ok none, [])
  | c :: _ =>
      let updated := renamedRow f c
      let zipEff :=
        if isZipFile env updated.basename then
          [Effect.transferZipHierarchy updated.id c.path updated.path]
        else []
      let pre := Effect.log LogMode.inline (LogMsg.fileMoved c.path updated.path) ::
        Effect.updateFile updated :: zipEff
      match fireHandlers env updated (some c) with
      | (Except.ok _, htr) => (Except.ok (some updated), pre ++ htr)
      | (Except.error e, htr) => (Except.error e, pre ++ htr)

/-- The result of scanning one file (ScanFileResult). -/
structure ScanFileResult where
  file : BaseFile
  new : Bool := false
  renamed : Bool := false
  updated : Bool := false
deriving DecidableEq, Repr

/-- The new-file snapshot of onNewFile before fingerprinting: created_at and
updated_at stamped now, parent folder id resolved. -/
def newFileBase (env : ScanEnv) (f : ScannedFile) (pid : Nat) : BaseFile :=
  { f with createdAt := env.now, updatedAt := env.now, parentFolderID := pid }

/-- A file row with a computed fingerprint set applied
(BaseFile.SetFingerprints on a snapshot). -/
def fingerprintedBase (b : BaseFile) (fp : List Fingerprint) : BaseFile :=
  { b with fingerprints := setFingerprints b.fingerprints fp }

/-- Scanner.onNewFile: resolve the parent folder (error when absent), compute
fingerprints, decorate, attempt rename detection, and otherwise create the row
and fire handlers. -/
def onNewFile (env : ScanEnv) (f : ScannedFile) : M ScanFileResult :=
  match getFolderID env (dirPath f.path) with
  | none => (Except.error (Err.parentFolderMissing f.path), [])
  | some pid =>
      let base1 := newFileBase env f pid
      mbind (calculateFingerprintsM env base1 base1.path false) (fun fp =>
        mbind (fireDecorators env (fingerprintedBase base1 fp)) (fun file =>
          mbind (handleRename env file fp) (fun renamed =>
            match renamed with
            | some r =>
                (Except.ok { file := r, new := false, renamed := true, updated := false }, [])
            | none =>
                mbind (emitM [Effect.createFile file]) (fun _ =>
                  mbind (fireHandlers env file none) (fun _ =>
                    (Except.ok { file := file, new := true, renamed := false, updated := false },
                     []))))))

/-- Scanner.removeOutdatedFingerprints: drop the stored MD5 when a fresh
oshash differs from the stored oshash and the fresh set carries no MD5
(scan.go lines 774-799). -/
def removeOutdatedFingerprints (existingFps fp : List Fingerprint) : List Fingerprint :=
  match fingerprintsFor fp FingerprintTypeOshash with
  | none => existingFps
  | some oshash =>
      match fingerprintsFor existingFps FingerprintTypeOshash with
      | none => existingFps
      | some existingOshash =>
          if existingOshash = oshash then existingFps
          else
            match fingerprintsFor fp FingerprintTypeMD5 with
            | some _ => existingFps
            | none => fingerprintsRemove existingFps FingerprintTypeMD5

/-- Scanner.setMissingMetadata: refresh the size, re-run decorators and update
the row. -/
def setMissingMetadata (env : ScanEnv) (f : ScannedFile) (existing : BaseFile) : M BaseFile :=
  let ex1 := { existing with size := f.size }
  mbind (emitM [Effect.log LogMode.inline (LogMsg.updatingMetadata existing.path)]) (fun _ =>
    mbind (fireDecorators env ex1) (fun ex2 =>
      mbind (emitM [Effect.updateFile ex2]) (fun _ => (Except.ok ex2, []))))

/-- Scanner.setMissingFingerprints: recompute fingerprints reusing existing
values; update the row only when the contents changed. -/
def setMissingFingerprints (env : ScanEnv) (f : ScannedFile) (existing : BaseFile) : M BaseFile :=
  mbind (calculateFingerprintsM env existing f.path true) (fun fp =>
    if contentsChanged fp existing.fingerprints then
      let ex2 := { existing with fingerprints := setFingerprints existing.fingerprints fp }
      mbind (emitM [Effect.updateFile ex2]) (fun _ => (Except.ok ex2, []))
    else (Except.ok existing, []))

/-- Scanner.onUnchangedFile: repair missing metadata and missing fingerprints,
then fire handlers when the handler-required filters demand it; report updated
exactly when metadata was repaired or handlers ran. -/
def onUnchangedFile (env : ScanEnv) (f : ScannedFile) (existing : BaseFile) : M ScanFileResult :=
  let missingMeta := env.fileDecorators.any (fun d => d.isMissingMetadata existing)
  mbind (if missingMeta then setMissingMetadata env f existing else (Except.ok existing, []))
    (fun ex1 =>
      mbind (setMissingFingerprints env f ex1) (fun ex2 =>
        if !(isHandlerRequired env ex2) then
          if missingMeta then
            (Except.ok { file := ex2, new := false, renamed := false, updated := true }, [])
          else
            (Except.ok { file := ex2, new := false, renamed := false, updated := false }, [])
        else
          mbind (fireHandlers env ex2 none) (fun _ =>
            (Except.ok { file := ex2, new := false, renamed := false, updated := true }, []))))

/-- Scanner.onExistingFile: take the changed path iff the mod time differs,
the basename differs, or the Rescan flag is set; otherwise defer to
onUnchangedFile.  The changed path refreshes the snapshot fields, recomputes
fingerprints, removes outdated fingerprints, applies the fresh set, runs
decorators, updates the row and fires handlers with the old snapshot. -/
def onExistingFile (env : ScanEnv) (f : ScannedFile) (existing : BaseFile) : M ScanFileResult :=
  let changed := !(f.modTime == existing.modTime) || existing.basename != f.basename
  if !changed && !env.rescan then onUnchangedFile env f existing
  else
    let logMsg :=
      if !changed && env.rescan then LogMsg.rescanningForced existing.path
      else LogMsg.updatedRescanning existing.path
    let base1 := { existing with
      basename := f.basename
      modTime := f.modTime
      size := f.size
      updatedAt := env.now }
    mbind (emitM [Effect.log LogMode.inline logMsg]) (fun _ =>
      mbind (calculateFingerprintsM env base1 existing.path false) (fun fp =>
        let ex1 := { base1 with
          fingerprints := setFingerprints (removeOutdatedFingerprints base1.fingerprints fp) fp }
        mbind (fireDecorators env ex1) (fun ex2 =>
          mbind (emitM [Effect.updateFile ex2]) (fun _ =>
            mbind (fireHandlers env ex2 (some existing)) (fun _ =>
              (Except.ok { file := ex2, new := false, renamed := false, updated := true },
               []))))))

/-- The existing-row lookup of ScanFile (scan.go lines 338-357): a
case-sensitive lookup first; the case-insensitive second lookup runs only for
files carrying a zip file id whose path the FS reports case-insensitive. -/
def scanFileLookup (env : ScanEnv) (f : ScannedFile) : Option BaseFile :=
  match env.findFileByPath f.path true with
  | some ff => some ff
  | none =>
      match f.zipFileID with
      | some _ =>
          if !(env.isPathCaseSensitive f.path) then env.findFileByPath f.path false
          else none
      | none => none

/-- Scanner.ScanFile: look up the existing row and dispatch to onNewFile or
onExistingFile. -/
def scanFile (env : ScanEnv) (f : ScannedFile) : M ScanFileResult :=
  match scanFileLookup env f with
  | none => onNewFile env f
  | some ff => onExistingFile env f ff

/-- Modelled from the spec: detectFolderMove is not under src.  Spec section
4.D.1 step 3: iterate candidate folders whose basename matches and whose
existing path is no longer present on disk (lstat fails); the first such
candidate is treated as moved. -/
def detectFolderMove (env : ScanEnv) (file : ScannedFile) : Option Folder :=
  (env.folderMoveCandidates file.basename).find? (fun cand => !(env.lstatFolderOk cand.path))

/-- The moved folder row of handleFolderRename: the candidate repathed to the
scanned path with its parent folder id re-resolved. -/
def movedFolderRow (env : ScanEnv) (file : ScannedFile) (renamedFrom : Folder) : Folder :=
  { renamedFrom with
    path := file.path
    parentFolderID := getFolderID env (dirPath file.path) }

/-- Scanner.handleFolderRename: never attempted for folders inside zip files;
otherwise probe for a moved candidate, and on success log the move inline,
update the row and repair the sub-folder hierarchy.  The hierarchy repair
(correctSubFolderHierarchy, not under src) is represented by its trace
effect. -/
def handleFolderRename (env : ScanEnv) (file : ScannedFile) : M (Option Folder) :=
  match file.zipFileID with
  | some _ => (Except.ok none, [])
  | none =>
      match detectFolderMove env file with
      | none => (Except.ok none, [Effect.detectFolderMoveProbe file.path])
      | some renamedFrom =>
          let moved := movedFolderRow env file renamedFrom
          (Except.ok (some moved),
            [Effect.detectFolderMoveProbe file.path,
             Effect.log LogMode.inline (LogMsg.folderMoved renamedFrom.path file.path),
             Effect.updateFolder moved,
             Effect.fixSubFolderHierarchy renamedFrom.path file.path])

/-- The folder row created by onNewFolder: timestamps stamped now and the
parent resolved from the path-to-id cache or the catalog; a missing parent is
treated as a top-level folder. -/
def newFolderRow (env : ScanEnv) (file : ScannedFile) : Folder :=
  let toCreate : Folder :=
    { id := 0
      path := file.path
      parentFolderID := none
      zipFileID := file.zipFileID
      modTime := file.modTime
      createdAt := env.now
      updatedAt := env.now }
  let dir := dirPath file.path
  if dir ≠ "." then
    match getFolderID env dir with
    | some pid => { toCreate with parentFolderID := some pid }
    | none => toCreate
  else toCreate

/-- Scanner.onNewFolder: attempt folder rename detection first; otherwise
create a new folder row, registering the creation log as a post-commit
hook. -/
def onNewFolder (env : ScanEnv) (file : ScannedFile) : M Folder :=
  mbind (handleFolderRename env file) (fun renamed =>
    match renamed with
    | some r => (Except.ok r, [])
    | none =>
        let toCreate := newFolderRow env file
        (Except.ok toCreate,
          [Effect.log LogMode.postCommitHook (LogMsg.creatingNewFolder file.path),
           Effect.createFolder toCreate]))

/-- Scanner.onExistingFolder: update the row when the mod time changed, when
the stored path differs (case change), or when the zip file id changed. -/
def onExistingFolder (_env : ScanEnv) (f : ScannedFile) (existing : Folder) : M Folder :=
  let s1 :=
    if !(f.modTime == existing.modTime) then
      ({ existing with path := f.path, modTime := f.modTime }, true)
    else (existing, false)
  let s2 :=
    if s1.1.path ≠ f.path then ({ s1.1 with path := f.path }, true)
    else s1
  let s3 :=
    if f.zipFileID ≠ s2.1.zipFileID then ({ s2.1 with zipFileID := f.zipFileID }, true)
    else s2
  if s3.2 then (Except.ok s3.1, [Effect.updateFolder s3.1])
  else (Except.ok s3.1, [])

/-- The existing-row lookup of ScanFolder (scan.go lines 154-173): a
case-sensitive lookup first; the case-insensitive second lookup runs only for
folders outside zip files whose path the FS reports case-insensitive. -/
def scanFolderLookup (env : ScanEnv) (file : ScannedFile) : Option Folder :=
  match env.findFolderByPath file.path true with
  | some f => some f
  | none =>
      match file.zipFileID with
      | none =>
          if !(env.isPathCaseSensitive file.path) then env.findFolderByPath file.path false
          else none
      | some _ => none

/-- Scanner.ScanFolder: look up the existing folder row and dispatch to
onNewFolder or onExistingFolder. -/
def scanFolder (env : ScanEnv) (file : ScannedFile) : M Folder :=
  match scanFolderLookup env file with
  | none => onNewFolder env file
  | some f0 => onExistingFolder env file f0

/-- The inline log lines of a trace: emitted once per execution of the
transaction body. -/
def inlineLogs (tr : List Effect) : List LogMsg :=
  tr.filterMap (fun e =>
    match e with
    | Effect.log LogMode.inline m => some m
    | _ => none)

/-- The post-commit-hook log lines of a trace: emitted once after the final
successful commit. -/
def hookLogs (tr : List Effect) : List LogMsg :=
  tr.filterMap (fun e =>
    match e with
    | Effect.log LogMode.postCommitHook m => some m
    | _ => none)

/-- Modelled from the spec: the transaction retry and post-commit hook
semantics of pkg/txn are not under src.  Spec section 4.B: the gateway may
retry a transaction body on transient contention; hooks registered in aborted
attempts never fire, and hooks of the final successful attempt fire exactly
once after commit.  Inline log lines, by contrast, are emitted by every
attempt.  The observable log stream for a body retried after the given number
of aborted attempts. -/
def observedLogsWithRetries (tr : List Effect) (abortedAttempts : Nat) : List LogMsg :=
  (List.replicate abortedAttempts (inlineLogs tr)).flatten ++ inlineLogs tr ++ hookLogs tr

/-! Concrete inputs used by witnesses and counterexamples. -/

/-- A scanner environment with empty collaborator configuration, over an empty
catalog and a fully case-sensitive, fully present filesystem. -/
def emptyEnv : ScanEnv :=
  { findFileByPath := fun _ _ => none
    findFilesByFingerprint := fun _ => []
    findFolderByPath := fun _ _ => none
    folderCache := fun _ => none
    isPathCaseSensitive := fun _ => true
    getFileFSOk := fun _ => true
    lstatOk := fun _ => true
    lstatFolderOk := fun _ => true
    folderMoveCandidates := fun _ => []
    calculateFingerprints := fun _ _ => some []
    scanFilters := []
    handlerRequiredFilters := []
    fileDecorators := []
    fileHandlers := []
    zipFileExtensions := []
    rescan := false
    now := 100 }

/-- Builds a file row or snapshot with the given identity and attributes. -/
def mkFile (id : Nat) (path basename : String) (zip : Option Nat) (size modTime : Nat)
    (fps : List Fingerprint) : BaseFile :=
  { id := id
    path := path
    basename := basename
    parentFolderID := 0
    zipFileID := zip
    size := size
    modTime := modTime
    fingerprints := fps
    createdAt := 1
    updatedAt := 1 }

/-! Helper lemmas about the effect monad and the collaborator pipelines. -/

theorem mbind_fst_ok {α β : Type} {x : M α} {g : α → M β} {b : β}
    (h : (mbind x g).1 = Except.ok b) :
    ∃ a, x.1 = Except.ok a ∧ (g a).1 = Except.ok b := by
  cases hx : x.1 with
  | ok a =>
      refine ⟨a, rfl, ?_⟩
      simpa [mbind, hx] using h
  | error e => simp [mbind, hx] at h

theorem mbind_trace_ok {α β : Type} {x : M α} {g : α → M β} {a : α}
    (h : x.1 = Except.ok a) : (mbind x g).2 = x.2 ++ (g a).2 := by
  simp [mbind, h]

theorem mbind_trace_err {α β : Type} {x : M α} {g : α → M β} {e : Err}
    (h : x.1 = Except.error e) : (mbind x g).2 = x.2 := by
  simp [mbind, h]

theorem mem_mbind_trace {α β : Type} {x : M α} {g : α → M β} {e : Effect}
    (h : e ∈ (mbind x g).2) :
    e ∈ x.2 ∨ ∃ a, x.1 = Except.ok a ∧ e ∈ (g a).2 := by
  cases hx : x.1 with
  | ok a =>
      rw [mbind_trace_ok hx] at h
      rcases List.mem_append.mp h with h1 | h2
      · exact Or.inl h1
      · exact Or.inr ⟨a, rfl, h2⟩
  | error er =>
      rw [mbind_trace_err hx] at h
      exact Or.inl h

theorem fireDecoratorsAux_trace {ds : List Decorator} {f : BaseFile} {e : Effect}
    (h : e ∈ (fireDecoratorsAux ds f).2) : ∃ p, e = Effect.decorateFile p := by
  induction ds generalizing f with
  | nil => simp [fireDecoratorsAux] at h
  | cons d rest ih =>
      cases hd : d.decorate f with
      | some r =>
          rcases hrec : fireDecoratorsAux rest r with ⟨res, tr⟩
          simp only [fireDecoratorsAux, hd, hrec, List.mem_cons] at h
          rcases h with h | h
          · exact ⟨f.path, h⟩
          · exact ih (by rw [hrec]; exact h)
      | none =>
          simp only [fireDecoratorsAux, hd, List.mem_singleton] at h
          exact ⟨f.path, h⟩

theorem fireHandlersAux_trace {hs : List Handler} {f : BaseFile} {old : Option BaseFile}
    {e : Effect} (h : e ∈ (fireHandlersAux hs f old).2) :
    e = Effect.fireHandler f old := by
  induction hs with
  | nil => simp [fireHandlersAux] at h
  | cons hd rest ih =>
      by_cases hh : hd.handle f old
      · rcases hrec : fireHandlersAux rest f old with ⟨res, tr⟩
        simp only [fireHandlersAux, if_pos hh, hrec, List.mem_cons] at h
        rcases h with h | h
        · exact h
        · exact ih (by rw [hrec]; exact h)
      · simp only [fireHandlersAux, if_neg hh] at h
        simp at h

theorem fingerprintsFor_type {fps : List Fingerprint} {t : String} {x : Fingerprint}
    (h : fingerprintsFor fps t = some x) : x.fpType = t := by
  rw [fingerprintsFor] at h
  exact eq_of_beq (by simpa using List.find?_some h)

/-- The outdated-MD5 condition exactly as the claim states it: the newly
computed set contains an oshash, the stored set contains an oshash, the two
oshash values differ, and the newly computed set contains no MD5. -/
def md5Outdated (existingFps fp : List Fingerprint) : Bool :=
  match fingerprintsFor fp FingerprintTypeOshash,
        fingerprintsFor existingFps FingerprintTypeOshash with
  | some n, some o => n.value != o.value && (fingerprintsFor fp FingerprintTypeMD5).isNone
  | _, _ => false

/-- C5: when an existing file is rescanned as changed, the stored MD5
fingerprint is removed iff the newly computed set contains an oshash, the
stored set contains an oshash, the two oshash values differ, and the newly
computed set contains no MD5; in every other case the stored fingerprints
(MD5 included) are left untouched by the outdation step that runs before the
newly computed set is applied. -/
theorem removeOutdatedFingerprints_md5_policy (existingFps fp : List Fingerprint) :
    removeOutdatedFingerprints existingFps fp =
      if md5Outdated existingFps fp then fingerprintsRemove existingFps FingerprintTypeMD5
      else existingFps := by
  cases hn : fingerprintsFor fp FingerprintTypeOshash with
  | none => simp [removeOutdatedFingerprints, md5Outdated, hn]
  | some n =>
      cases ho : fingerprintsFor existingFps FingerprintTypeOshash with
      | none => simp [removeOutdatedFingerprints, md5Outdated, hn, ho]
      | some o =>
          have hnt : n.fpType = FingerprintTypeOshash := fingerprintsFor_type hn
          have hot : o.fpType = FingerprintTypeOshash := fingerprintsFor_type ho
          have hval : (o = n) ↔ o.value = n.value := by
            constructor
            · intro h; rw [h]
            · intro hv
              cases o
              cases n
              simp only [Fingerprint.mk.injEq]
              exact ⟨hot.trans hnt.symm, hv⟩
          by_cases heq : o = n
          · have hfalse : (n.value != o.value) = false := by
              simp [heq]
            simp [removeOutdatedFingerprints, md5Outdated, hn, ho, heq, hfalse]
          · cases hm : fingerprintsFor fp FingerprintTypeMD5 with
            | some m =>
                simp [removeOutdatedFingerprints, md5Outdated, hn, ho, heq, hm]
            | none =>
                have hvne : n.value ≠ o.value := fun hv => heq (hval.mpr hv.symm)
                simp [removeOutdatedFingerprints, md5Outdated, hn, ho, heq, hm, hvne]

/-- The catalog row stored under the lower-case path for the C1 scenario. -/
def c1Row : BaseFile := mkFile 7 "/lib/a/x.mp4" "x.mp4" none 100 5 []

/-- The folder row stored under the lower-case path for the C1 scenario. -/
def c1Folder : Folder :=
  { id := 3
    path := "/lib/a"
    parentFolderID := none
    zipFileID := none
    modTime := 5
    createdAt := 1
    updatedAt := 1 }

/-- Environment for the C1 scenario: a case-insensitive filesystem, and a
catalog that misses the scanned path case-sensitively but finds the stored
row case-insensitively. -/
def c1Env : ScanEnv := { emptyEnv with
  findFileByPath := fun p cs =>
    if cs = false && equalFold p "/lib/a/x.mp4" then some c1Row else none
  findFolderByPath := fun p cs =>
    if cs = false && equalFold p "/lib/a" then some c1Folder else none
  isPathCaseSensitive := fun _ => false }

/-- The scanned file of the C1 scenario: outside any archive, same path as the
stored row up to case. -/
def c1File : ScannedFile := mkFile 0 "/lib/A/X.mp4" "X.mp4" none 100 5 []

/-- The scanned folder of the C1 scenario, same path as the stored folder row
up to case. -/
def c1FolderScan : ScannedFile := mkFile 0 "/lib/A" "A" none 0 5 []

/-- C1: at the failing input — a file outside any archive, on a filesystem
whose per-path probe reports the path case-insensitive, with a catalog row
that only a case-insensitive lookup finds — ScanFile's lookup nevertheless
returns no row (it performs the second, case-insensitive lookup only for
files inside archives), while the folder variant at the analogous input does
find the existing row.  This contradicts the claimed (and commented) intent
that non-archive paths probe case-insensitively. -/
theorem scanFileLookup_skips_insensitive_outside_archives :
    c1File.zipFileID = none ∧
    c1Env.isPathCaseSensitive c1File.path = false ∧
    c1Env.findFileByPath c1File.path false = some c1Row ∧
    scanFileLookup c1Env c1File = none ∧
    scanFolderLookup c1Env c1FolderScan = some c1Folder := by
  refine ⟨rfl, rfl, ?_, ?_, ?_⟩ <;> decide

/-- The same-archive-scope relation exactly as the claim states it: both
records have no zip file id, or both carry the identical zip file id. -/
def sameArchiveScope (a b : Option Nat) : Bool :=
  match a, b with
  | none, none => true
  | some x, some y => x == y
  | _, _ => false

theorem renameCandidateKept_iff (a b : Option Nat) :
    renameCandidateKept a b = true ↔ (b = none ∨ (a ≠ none ∧ b = a)) := by
  cases b <;> cases a <;> simp [renameCandidateKept]

/-- The cross-scope rename candidate of the C4 scenario: a catalog file
outside any archive sharing a fingerprint with a scanned file inside an
archive. -/
def c4Cand : BaseFile :=
  mkFile 9 "/lib/old.mp4" "old.mp4" none 100 5 [{ fpType := FingerprintTypeOshash, value := 21 }]

/-- The scanned file of the C4 scenario, inside archive 5. -/
def c4File : ScannedFile :=
  mkFile 0 "/lib/pack.zip/inner.mp4" "inner.mp4" (some 5) 100 6
    [{ fpType := FingerprintTypeOshash, value := 21 }]

/-- The freshly computed fingerprints of the C4 scenario. -/
def c4Fp : List Fingerprint := [{ fpType := FingerprintTypeOshash, value := 21 }]

/-- Environment for the C4 scenario: the fingerprint query returns the
cross-scope candidate, which is missing on disk. -/
def c4Env : ScanEnv := { emptyEnv with
  findFilesByFingerprint := fun tfp => if tfp.value = 21 then [c4Cand] else []
  lstatOk := fun o => !(o.id == 9) }

/-- C4 counterexample: a candidate that is not in the same archive scope as
the scanned file (the candidate has no zip file id while the scanned file is
inside archive 5) is nevertheless kept by handleRename and chosen for the
rename, refuting the claim that every such candidate is skipped. -/
theorem handleRename_keeps_cross_scope_candidate :
    sameArchiveScope c4File.zipFileID c4Cand.zipFileID = false ∧
    (handleRename c4Env c4File c4Fp).1 = Except.ok (some (renamedRow c4File c4Cand)) := by
  exact ⟨by decide, rfl⟩

/-- C4 amended: a catalog file sharing a fingerprint with the scanned file is
kept as a rename candidate iff it has no zip file id at all, or the scanned
file carries a zip file id and the candidate carries the identical one; every
candidate in any other zip configuration is skipped before the missing-on-disk
probe. -/
theorem missingFiles_mem_iff (env : ScanEnv) (f : BaseFile) (others : List BaseFile)
    (c : BaseFile) :
    c ∈ missingFiles env f others ↔
      c ∈ others ∧ (c.zipFileID = none ∨ (f.zipFileID ≠ none ∧ c.zipFileID = f.zipFileID)) ∧
        candidateMissing env f c = true := by
  simp [missingFiles, List.mem_filter, renameCandidateKept_iff, and_assoc]

theorem setMissingMetadata_trace {env : ScanEnv} {f : ScannedFile} {ex : BaseFile} {e : Effect}
    (h : e ∈ (setMissingMetadata env f ex).2) :
    (∃ p, e = Effect.log LogMode.inline (LogMsg.updatingMetadata p)) ∨
      (∃ p, e = Effect.decorateFile p) ∨ (∃ x, e = Effect.updateFile x) := by
  rw [setMissingMetadata] at h
  rcases mem_mbind_trace h with h1 | ⟨_, _, h2⟩
  · exact Or.inl ⟨ex.path, by simpa [emitM] using h1⟩
  · rcases mem_mbind_trace h2 with h3 | ⟨ex2, _, h4⟩
    · exact Or.inr (Or.inl (fireDecoratorsAux_trace h3))
    · rcases mem_mbind_trace h4 with h5 | ⟨_, _, h6⟩
      · exact Or.inr (Or.inr ⟨ex2, by simpa [emitM] using h5⟩)
      · simp at h6

theorem setMissingFingerprints_trace {env : ScanEnv} {f : ScannedFile} {ex : BaseFile}
    {e : Effect} (h : e ∈ (setMissingFingerprints env f ex).2) :
    e = Effect.calcFingerprints f.path true ∨ ∃ x, e = Effect.updateFile x := by
  rw [setMissingFingerprints] at h
  rcases mem_mbind_trace h with h1 | ⟨fp, _, h2⟩
  · exact Or.inl (by simpa [calculateFingerprintsM] using h1)
  · by_cases hc : contentsChanged fp ex.fingerprints
    · simp only [hc, if_true] at h2
      rcases mem_mbind_trace h2 with h3 | ⟨_, _, h4⟩
      · exact Or.inr ⟨_, by simpa [emitM] using h3⟩
      · simp at h4
    · simp only [hc, if_false] at h2
      simp at h2

theorem onUnchangedFile_no_fresh_calc {env : ScanEnv} {f : ScannedFile} {ex : BaseFile}
    {p : String} (h : Effect.calcFingerprints p false ∈ (onUnchangedFile env f ex).2) :
    False := by
  rw [onUnchangedFile] at h
  rcases mem_mbind_trace h with h1 | ⟨ex1, _, h2⟩
  · by_cases hm : env.fileDecorators.any (fun d => d.isMissingMetadata ex)
    · simp only [hm, if_true] at h1
      rcases setMissingMetadata_trace h1 with ⟨_, hh⟩ | ⟨_, hh⟩ | ⟨_, hh⟩ <;> simp at hh
    · simp only [hm, if_false] at h1
      simp at h1
  · rcases mem_mbind_trace h2 with h3 | ⟨ex2, _, h4⟩
    · rcases setMissingFingerprints_trace h3 with hh | ⟨_, hh⟩ <;> simp at hh
    · by_cases hr : isHandlerRequired env ex2
      · simp only [hr] at h4
        simp only [Bool.not_true, if_false] at h4
        rcases mem_mbind_trace h4 with h5 | ⟨_, _, h6⟩
        · have := fireHandlersAux_trace h5
          simp at this
        · simp at h6
      · simp only [hr] at h4
        simp only [Bool.not_false, if_true] at h4
        by_cases hmm : env.fileDecorators.any (fun d => d.isMissingMetadata ex)
        · simp [hmm] at h4
        · simp [hmm] at h4


theorem mbind_emit_trace {β : Type} (effs : List Effect) (g : Unit → M β) :
    (mbind (emitM effs) g).2 = effs ++ (g ()).2 := rfl

theorem calc_marker_mem {β : Type} {env : ScanEnv} {b : BaseFile} {p : String} {u : Bool}
    {g : List Fingerprint → M β} :
    Effect.calcFingerprints p u ∈ (mbind (calculateFingerprintsM env b p u) g).2 := by
  cases hc : (calculateFingerprintsM env b p u).1 with
  | ok fp =>
      rw [mbind_trace_ok hc]
      exact List.mem_append.mpr (Or.inl (by simp [calculateFingerprintsM]))
  | error e =>
      rw [mbind_trace_err hc]
      simp [calculateFingerprintsM]

theorem onExistingFile_guard_iff (env : ScanEnv) (f : ScannedFile) (existing : BaseFile) :
    ((!(!(f.modTime == existing.modTime) || existing.basename != f.basename) &&
        !env.rescan) = true) ↔
      (f.modTime = existing.modTime ∧ existing.basename = f.basename ∧ env.rescan = false) := by
  cases hr : env.rescan <;>
    by_cases h1 : f.modTime = existing.modTime <;>
    by_cases h2 : existing.basename = f.basename <;>
    simp [h1, h2, hr, bne]

/-- C6: for a file found in the catalog by path, onExistingFile takes the
changed path — recomputing fingerprints afresh, observable as the
fresh-fingerprint calculation in its trace — iff the filesystem mod time
differs from the stored one, the basename differs from the stored one, or the
Rescan flag is set; in every other case it takes the unchanged-file path,
which never recomputes fingerprints afresh. -/
theorem onExistingFile_changed_iff (env : ScanEnv) (f : ScannedFile) (existing : BaseFile) :
    (¬ f.modTime = existing.modTime ∨ ¬ existing.basename = f.basename ∨ env.rescan = true) ↔
      Effect.calcFingerprints existing.path false ∈ (onExistingFile env f existing).2 := by
  by_cases hc : f.modTime = existing.modTime ∧ existing.basename = f.basename ∧
      env.rescan = false
  · have hguard := (onExistingFile_guard_iff env f existing).mpr hc
    have e1 : onExistingFile env f existing = onUnchangedFile env f existing := by
      simp only [onExistingFile, hguard]
      simp
    constructor
    · intro h
      exfalso
      rcases hc with ⟨h1, h2, h3⟩
      rcases h with h | h | h
      · exact h h1
      · exact h h2
      · rw [h3] at h
        cases h
    · intro h
      exfalso
      rw [e1] at h
      exact onUnchangedFile_no_fresh_calc h
  · have hguard : ((!(!(f.modTime == existing.modTime) || existing.basename != f.basename) &&
        !env.rescan) = false) := by
      cases hg : (!(!(f.modTime == existing.modTime) || existing.basename != f.basename) &&
          !env.rescan) with
      | true => exact absurd ((onExistingFile_guard_iff env f existing).mp hg) hc
      | false => rfl
    constructor
    · intro _
      simp only [onExistingFile, hguard]
      simp only [Bool.false_eq_true, if_false]
      rw [mbind_emit_trace]
      exact List.mem_append.mpr (Or.inr calc_marker_mem)
    · intro _
      rcases not_and_or.mp hc with h | h
      · exact Or.inl h
      · rcases not_and_or.mp h with h | h
        · exact Or.inr (Or.inl h)
        · refine Or.inr (Or.inr ?_)
          cases hr : env.rescan with
          | true => rfl
          | false => exact absurd hr h

theorem fireHandlers_trace {env : ScanEnv} {f : BaseFile} {old : Option BaseFile} {e : Effect}
    (h : e ∈ (fireHandlers env f old).2) : e = Effect.fireHandler f old :=
  fireHandlersAux_trace h

theorem fireDecorators_trace {env : ScanEnv} {b : BaseFile} {res : Except Err BaseFile}
    {tr : List Effect} {e : Effect} (h : fireDecorators env b = (res, tr)) (he : e ∈ tr) :
    ∃ p, e = Effect.decorateFile p := by
  have hm : e ∈ (fireDecoratorsAux env.fileDecorators b).2 := by
    rw [show fireDecoratorsAux env.fileDecorators b = (res, tr) from h]
    exact he
  exact fireDecoratorsAux_trace hm

theorem handleRename_of_missing {env : ScanEnv} {f : BaseFile} {fp : List Fingerprint}
    {c : BaseFile} {rest : List BaseFile}
    (h : missingFiles env f (collectRenameCandidates env fp) = c :: rest)
    (hh : (fireHandlers env (renamedRow f c) (some c)).1 = Except.ok ()) :
    handleRename env f fp =
      (Except.ok (some (renamedRow f c)),
        Effect.log LogMode.inline (LogMsg.fileMoved c.path (renamedRow f c).path) ::
          Effect.updateFile (renamedRow f c) ::
            ((if isZipFile env (renamedRow f c).basename then
                [Effect.transferZipHierarchy (renamedRow f c).id c.path (renamedRow f c).path]
              else []) ++
              (fireHandlers env (renamedRow f c) (some c)).2)) := by
  rcases hfh : fireHandlers env (renamedRow f c) (some c) with ⟨res, htr⟩
  have hres : res = Except.ok () := by
    rw [hfh] at hh
    exact hh
  subst hres
  simp only [handleRename, h, hfh, List.cons_append]

theorem onNewFile_rename_eval {env : ScanEnv} {f : ScannedFile} {pid : Nat}
    {fps : List Fingerprint} {d c : BaseFile} {rest : List BaseFile} {trD : List Effect}
    (h1 : getFolderID env (dirPath f.path) = some pid)
    (h2 : env.calculateFingerprints (newFileBase env f pid) false = some fps)
    (h3 : fireDecorators env (fingerprintedBase (newFileBase env f pid) fps) =
          (Except.ok d, trD))
    (h4 : missingFiles env d (collectRenameCandidates env fps) = c :: rest)
    (h5 : (fireHandlers env (renamedRow d c) (some c)).1 = Except.ok ()) :
    onNewFile env f =
      (Except.ok { file := renamedRow d c, new := false, renamed := true, updated := false },
        Effect.calcFingerprints f.path false ::
          (trD ++
            (Effect.log LogMode.inline (LogMsg.fileMoved c.path (renamedRow d c).path) ::
              Effect.updateFile (renamedRow d c) ::
                ((if isZipFile env (renamedRow d c).basename then
                    [Effect.transferZipHierarchy (renamedRow d c).id c.path
                      (renamedRow d c).path]
                  else []) ++
                  (fireHandlers env (renamedRow d c) (some c)).2)))) := by
  have hr := handleRename_of_missing h4 h5
  have hp : (newFileBase env f pid).path = f.path := rfl
  simp only [onNewFile, h1, calculateFingerprintsM, h2, mbind, h3, hr, hp,
    List.cons_append, List.nil_append, List.append_nil]

/-- C2: when ScanFile processes a path with no existing catalog row and rename
detection finds at least one missing fingerprint candidate, the first missing
candidate's row is updated in place: its id and created_at are unchanged while
path, basename, parent folder id, mod time and size come from the new
(decorated) on-disk snapshot; the result has renamed true and new false, the
row update is in the trace, and no file row is created. -/
theorem scanFile_rename_in_place (env : ScanEnv) (f : ScannedFile) (pid : Nat)
    (fps : List Fingerprint) (d c : BaseFile) (rest : List BaseFile) (trD : List Effect)
    (h0 : scanFileLookup env f = none)
    (h1 : getFolderID env (dirPath f.path) = some pid)
    (h2 : env.calculateFingerprints (newFileBase env f pid) false = some fps)
    (h3 : fireDecorators env (fingerprintedBase (newFileBase env f pid) fps) =
          (Except.ok d, trD))
    (h4 : missingFiles env d (collectRenameCandidates env fps) = c :: rest)
    (h5 : (fireHandlers env (renamedRow d c) (some c)).1 = Except.ok ()) :
    (scanFile env f).1 =
        Except.ok { file := renamedRow d c, new := false, renamed := true, updated := false } ∧
      (renamedRow d c).id = c.id ∧
      (renamedRow d c).createdAt = c.createdAt ∧
      (renamedRow d c).path = d.path ∧
      (renamedRow d c).basename = d.basename ∧
      (renamedRow d c).parentFolderID = d.parentFolderID ∧
      (renamedRow d c).modTime = d.modTime ∧
      (renamedRow d c).size = d.size ∧
      Effect.updateFile (renamedRow d c) ∈ (scanFile env f).2 ∧
      ∀ x, Effect.createFile x ∉ (scanFile env f).2 := by
  have he : scanFile env f = onNewFile env f := by
    simp only [scanFile, h0]
  have hev := onNewFile_rename_eval h1 h2 h3 h4 h5
  rw [he, hev]
  refine ⟨rfl, rfl, rfl, rfl, rfl, rfl, rfl, rfl, ?_, ?_⟩
  · refine List.mem_cons_of_mem _ (List.mem_append.mpr (Or.inr ?_))
    exact List.mem_cons_of_mem _ (List.mem_cons_self _ _)
  · intro x hx
    simp only [List.mem_cons, List.mem_append] at hx
    rcases hx with hx | hx
    · cases hx
    rcases hx with hx | hx
    · rcases fireDecorators_trace h3 hx with ⟨p, hp⟩
      cases hp
    rcases hx with hx | hx
    · cases hx
    rcases hx with hx | hx
    · cases hx
    rcases hx with hx | hx
    · by_cases hz : isZipFile env (renamedRow d c).basename
      · simp only [hz, if_true, List.mem_singleton] at hx
        cases hx
      · simp only [hz, if_false] at hx
        cases hx
    · have := fireHandlers_trace hx
      cases this

/-- The missing rename candidate of the C2 witness scenario. -/
def c2Cand : BaseFile :=
  mkFile 9 "/lib/a/old.mp4" "old.mp4" none 100 5 [{ fpType := FingerprintTypeOshash, value := 3 }]

/-- Environment of the C2 witness scenario: the new path's parent folder is
cached, the calculator returns one oshash, the fingerprint query returns the
candidate, and the candidate is missing on disk. -/
def c2Env : ScanEnv := { emptyEnv with
  folderCache := fun p => if p = "/lib/b" then some 4 else none
  calculateFingerprints := fun _ u =>
    if u then some [] else some [{ fpType := FingerprintTypeOshash, value := 3 }]
  findFilesByFingerprint := fun tfp => if tfp.value = 3 then [c2Cand] else []
  lstatOk := fun o => !(o.id == 9) }

/-- The scanned file of the C2 witness scenario. -/
def c2File : ScannedFile := mkFile 0 "/lib/b/x.mp4" "x.mp4" none 100 6 []

/-- The fingerprints computed in the C2 witness scenario. -/
def c2Fps : List Fingerprint := [{ fpType := FingerprintTypeOshash, value := 3 }]

/-- The decorated new-file snapshot of the C2 witness scenario. -/
def c2Dec : BaseFile := fingerprintedBase (newFileBase c2Env c2File 4) c2Fps

theorem scanFile_rename_in_place_witness :
    (scanFile c2Env c2File).1 =
        Except.ok
          { file := renamedRow c2Dec c2Cand
            new := false
            renamed := true
            updated := false } ∧
      (renamedRow c2Dec c2Cand).id = c2Cand.id ∧
      (renamedRow c2Dec c2Cand).createdAt = c2Cand.createdAt := by
  have h := scanFile_rename_in_place c2Env c2File 4 c2Fps c2Dec c2Cand [] []
    rfl rfl rfl rfl rfl rfl
  exact ⟨h.1, h.2.1, h.2.2.1⟩

/-- C3 amended: after a rename is detected and persisted, the stored
fingerprint set of the renamed row equals the pre-existing stored set of the
chosen candidate row; the freshly computed set is not applied to the renamed
row. -/
theorem handleRename_keeps_candidate_fingerprints (env : ScanEnv) (f : BaseFile)
    (fp : List Fingerprint) (c : BaseFile) (rest : List BaseFile)
    (h : missingFiles env f (collectRenameCandidates env fp) = c :: rest)
    (hh : (fireHandlers env (renamedRow f c) (some c)).1 = Except.ok ()) :
    (handleRename env f fp).1 = Except.ok (some (renamedRow f c)) ∧
    (renamedRow f c).fingerprints = c.fingerprints := by
  refine ⟨?_, rfl⟩
  rw [handleRename_of_missing h hh]

/-- The rename candidate of the C3 scenario, storing both an oshash and an
MD5. -/
def c3Cand : BaseFile :=
  mkFile 9 "/lib/old.mp4" "old.mp4" none 100 5
    [{ fpType := FingerprintTypeOshash, value := 1 }, { fpType := FingerprintTypeMD5, value := 2 }]

/-- The scanned file of the C3 scenario, carrying only the freshly computed
oshash. -/
def c3File : ScannedFile :=
  mkFile 0 "/lib/new.mp4" "new.mp4" none 100 6 [{ fpType := FingerprintTypeOshash, value := 1 }]

/-- The freshly computed fingerprint set of the C3 scenario: an oshash only,
no MD5. -/
def c3Fp : List Fingerprint := [{ fpType := FingerprintTypeOshash, value := 1 }]

/-- Environment of the C3 scenario. -/
def c3Env : ScanEnv := { emptyEnv with
  findFilesByFingerprint := fun tfp => if tfp.value = 1 then [c3Cand] else []
  lstatOk := fun o => !(o.id == 9) }

theorem handleRename_keeps_candidate_fingerprints_witness :
    (handleRename c3Env c3File c3Fp).1 = Except.ok (some (renamedRow c3File c3Cand)) ∧
    (renamedRow c3File c3Cand).fingerprints = c3Cand.fingerprints :=
  handleRename_keeps_candidate_fingerprints c3Env c3File c3Fp c3Cand [] rfl rfl

/-- C3 counterexample: after the rename, the stored set of the renamed row is
the candidate's old set (oshash and stale MD5), which differs from the freshly
computed set (oshash only) — both as the raw calculator output and as that
output applied to the new snapshot — refuting the claim that the pre-existing
set is superseded wholesale by the freshly computed one. -/
theorem handleRename_discards_fresh_set :
    (handleRename c3Env c3File c3Fp).1 = Except.ok (some (renamedRow c3File c3Cand)) ∧
    (renamedRow c3File c3Cand).fingerprints =
      [{ fpType := FingerprintTypeOshash, value := 1 },
       { fpType := FingerprintTypeMD5, value := 2 }] ∧
    ¬ (renamedRow c3File c3Cand).fingerprints = c3Fp ∧
    ¬ (renamedRow c3File c3Cand).fingerprints = setFingerprints c3File.fingerprints c3Fp := by
  exact ⟨rfl, rfl, by decide, by decide⟩

theorem onUnchangedFile_flags {env : ScanEnv} {f : ScannedFile} {ex : BaseFile}
    {r : ScanFileResult} (h : (onUnchangedFile env f ex).1 = Except.ok r) :
    r.new = false ∧ r.renamed = false := by
  rw [onUnchangedFile] at h
  rcases mbind_fst_ok h with ⟨ex1, _, h2⟩
  rcases mbind_fst_ok h2 with ⟨ex2, _, h3⟩
  split at h3
  · split at h3 <;> (cases h3; exact ⟨rfl, rfl⟩)
  · rcases mbind_fst_ok h3 with ⟨_, _, h4⟩
    cases h4
    exact ⟨rfl, rfl⟩

theorem onExistingFile_flags {env : ScanEnv} {f : ScannedFile} {ex : BaseFile}
    {r : ScanFileResult} (h : (onExistingFile env f ex).1 = Except.ok r) :
    r.new = false ∧ r.renamed = false := by
  rw [onExistingFile] at h
  split at h
  · exact onUnchangedFile_flags h
  · rcases mbind_fst_ok h with ⟨_, _, h2⟩
    rcases mbind_fst_ok h2 with ⟨fp, _, h3⟩
    rcases mbind_fst_ok h3 with ⟨ex2, _, h4⟩
    rcases mbind_fst_ok h4 with ⟨_, _, h5⟩
    rcases mbind_fst_ok h5 with ⟨_, _, h6⟩
    cases h6
    exact ⟨rfl, rfl⟩

theorem onNewFile_flags {env : ScanEnv} {f : ScannedFile} {r : ScanFileResult}
    (h : (onNewFile env f).1 = Except.ok r) :
    r.updated = false ∧ (r.new = false ∨ r.renamed = false) := by
  cases hpid : getFolderID env (dirPath f.path) with
  | none =>
      simp only [onNewFile, hpid] at h
      cases h
  | some pid =>
      simp only [onNewFile, hpid] at h
      rcases mbind_fst_ok h with ⟨fp, _, h2⟩
      rcases mbind_fst_ok h2 with ⟨file, _, h3⟩
      rcases mbind_fst_ok h3 with ⟨renamed, _, h4⟩
      cases renamed with
      | some rr =>
          cases h4
          exact ⟨rfl, Or.inl rfl⟩
      | none =>
          rcases mbind_fst_ok h4 with ⟨_, _, h5⟩
          rcases mbind_fst_ok h5 with ⟨_, _, h6⟩
          cases h6
          exact ⟨rfl, Or.inr rfl⟩

/-- C7: every successful ScanFile call returns a result with at most one of
the new, renamed and updated flags set. -/
theorem scanFile_at_most_one_flag (env : ScanEnv) (f : ScannedFile) (r : ScanFileResult)
    (h : (scanFile env f).1 = Except.ok r) :
    r.new.toNat + r.renamed.toNat + r.updated.toNat ≤ 1 := by
  cases hl : scanFileLookup env f with
  | none =>
      rw [scanFile, hl] at h
      rcases onNewFile_flags h with ⟨hu, hnr⟩
      rcases hnr with hn | hr <;>
        cases hb : r.new <;> cases hc : r.renamed <;> simp_all [Bool.toNat]
  | some ff =>
      rw [scanFile, hl] at h
      rcases onExistingFile_flags h with ⟨hn, hr⟩
      cases hu : r.updated <;> simp_all [Bool.toNat]

/-- Environment of the C7 witness scenario: an empty catalog with the parent
folder cached, so the scan creates a new file. -/
def c7Env : ScanEnv := { emptyEnv with
  folderCache := fun p => if p = "/lib/a" then some 4 else none }

/-- The scanned file of the C7 witness scenario. -/
def c7File : ScannedFile := mkFile 0 "/lib/a/x.mp4" "x.mp4" none 100 5 []

/-- The result of the C7 witness scan: a newly created file. -/
def c7Res : ScanFileResult :=
  { file := fingerprintedBase (newFileBase c7Env c7File 4) []
    new := true
    renamed := false
    updated := false }

theorem scanFile_at_most_one_flag_witness :
    c7Res.new.toNat + c7Res.renamed.toNat + c7Res.updated.toNat ≤ 1 :=
  scanFile_at_most_one_flag c7Env c7File c7Res rfl

/-- C9: for a scanned folder inside an archive (non-null zip file id) that the
path lookup does not find, ScanFolder never attempts folder move detection —
no move probe appears in its trace — and unconditionally creates a new folder
row, registering the creation log as a post-commit hook. -/
theorem scanFolder_zip_no_move_detection (env : ScanEnv) (file : ScannedFile) (z : Nat)
    (hz : file.zipFileID = some z)
    (hl : scanFolderLookup env file = none) :
    scanFolder env file =
      (Except.ok (newFolderRow env file),
        [Effect.log LogMode.postCommitHook (LogMsg.creatingNewFolder file.path),
         Effect.createFolder (newFolderRow env file)]) ∧
    ∀ p, Effect.detectFolderMoveProbe p ∉ (scanFolder env file).2 := by
  have h1 : handleFolderRename env file = (Except.ok none, []) := by
    simp only [handleFolderRename, hz]
  have h2 : scanFolder env file =
      (Except.ok (newFolderRow env file),
        [Effect.log LogMode.postCommitHook (LogMsg.creatingNewFolder file.path),
         Effect.createFolder (newFolderRow env file)]) := by
    simp only [scanFolder, hl, onNewFolder, mbind, h1, List.nil_append]
  refine ⟨h2, ?_⟩
  intro p hp
  rw [h2] at hp
  simp at hp

/-- The scanned in-archive folder of the C9 witness scenario. -/
def c9File : ScannedFile := mkFile 0 "/lib/pack.zip/inner" "inner" (some 5) 0 7 []

theorem scanFolder_zip_no_move_detection_witness :
    scanFolder emptyEnv c9File =
      (Except.ok (newFolderRow emptyEnv c9File),
        [Effect.log LogMode.postCommitHook (LogMsg.creatingNewFolder c9File.path),
         Effect.createFolder (newFolderRow emptyEnv c9File)]) :=
  (scanFolder_zip_no_move_detection emptyEnv c9File 5 rfl rfl).1

/-- C10: when a scanned file has no existing catalog row and no folder row
exists for the directory component of its path — neither in the path-to-id
cache nor in the catalog — ScanFile returns an error with an empty effect
trace: no fingerprints computed, no decorators run, no rename detection
attempted, and no file row created or updated. -/
theorem scanFile_missing_parent_errors (env : ScanEnv) (f : ScannedFile)
    (h0 : scanFileLookup env f = none)
    (h1 : env.folderCache (dirPath f.path) = none)
    (h2 : env.findFolderByPath (dirPath f.path) true = none) :
    scanFile env f = (Except.error (Err.parentFolderMissing f.path), []) := by
  have hg : getFolderID env (dirPath f.path) = none := by
    simp [getFolderID, h1, h2]
  simp only [scanFile, h0, onNewFile, hg]

/-- The scanned file of the C10 witness scenario, over the empty catalog. -/
def c10File : ScannedFile := mkFile 0 "/lib/a/y.mp4" "y.mp4" none 50 5 []

theorem scanFile_missing_parent_errors_witness :
    scanFile emptyEnv c10File = (Except.error (Err.parentFolderMissing c10File.path), []) :=
  scanFile_missing_parent_errors emptyEnv c10File rfl rfl rfl

theorem count_flatten_replicate (n : Nat) (l : List LogMsg) (m : LogMsg) :
    ((List.replicate n l).flatten).count m = n * l.count m := by
  induction n with
  | zero => simp
  | succ k ih => simp [List.replicate_succ, ih, Nat.succ_mul, Nat.add_comm]

/-- C8 amended: the folder-move log is emitted inline inside the transaction
body at the moment the move is detected, not via a post-commit hook; under the
gateway's retry semantics it is therefore printed once per attempt — a body
retried after k aborted attempts prints it k+1 times — rather than exactly
once after commit. -/
theorem scanFolder_move_log_inline (env : ScanEnv) (file : ScannedFile)
    (renamedFrom : Folder)
    (hz : file.zipFileID = none)
    (hl : scanFolderLookup env file = none)
    (hd : detectFolderMove env file = some renamedFrom) :
    scanFolder env file =
      (Except.ok (movedFolderRow env file renamedFrom),
        [Effect.detectFolderMoveProbe file.path,
         Effect.log LogMode.inline (LogMsg.folderMoved renamedFrom.path file.path),
         Effect.updateFolder (movedFolderRow env file renamedFrom),
         Effect.fixSubFolderHierarchy renamedFrom.path file.path]) ∧
    Effect.log LogMode.postCommitHook (LogMsg.folderMoved renamedFrom.path file.path) ∉
      (scanFolder env file).2 ∧
    ∀ k, (observedLogsWithRetries (scanFolder env file).2 k).count
        (LogMsg.folderMoved renamedFrom.path file.path) = k + 1 := by
  have h1 : handleFolderRename env file =
      (Except.ok (some (movedFolderRow env file renamedFrom)),
        [Effect.detectFolderMoveProbe file.path,
         Effect.log LogMode.inline (LogMsg.folderMoved renamedFrom.path file.path),
         Effect.updateFolder (movedFolderRow env file renamedFrom),
         Effect.fixSubFolderHierarchy renamedFrom.path file.path]) := by
    simp only [handleFolderRename, hz, hd]
  have h2 : scanFolder env file =
      (Except.ok (movedFolderRow env file renamedFrom),
        [Effect.detectFolderMoveProbe file.path,
         Effect.log LogMode.inline (LogMsg.folderMoved renamedFrom.path file.path),
         Effect.updateFolder (movedFolderRow env file renamedFrom),
         Effect.fixSubFolderHierarchy renamedFrom.path file.path]) := by
    simp only [scanFolder, hl, onNewFolder, mbind, h1, List.append_nil]
  refine ⟨h2, ?_, ?_⟩
  · rw [h2]
    simp
  · intro k
    rw [h2]
    simp only [observedLogsWithRetries, inlineLogs, hookLogs, List.filterMap]
    simp [count_flatten_replicate, List.count_cons, List.count_append]

/-- The moved-away folder row of the C8 scenario. -/
def c8Old : Folder :=
  { id := 2
    path := "/old"
    parentFolderID := none
    zipFileID := none
    modTime := 5
    createdAt := 1
    updatedAt := 1 }

/-- Environment of the C8 scenario: a basename-matching candidate folder whose
old path no longer exists on disk. -/
def c8Env : ScanEnv := { emptyEnv with
  folderMoveCandidates := fun b => if b = "new" then [c8Old] else []
  lstatFolderOk := fun p => !(p == "/old") }

/-- The scanned folder of the C8 scenario, at the new location. -/
def c8File : ScannedFile := mkFile 0 "/new" "new" none 0 7 []

/-- C8 counterexample: at a concrete detected folder move, the move log never
appears as a post-commit hook in the transaction trace, and under one aborted
retry attempt the observable log stream carries the message twice — refuting
that it is emitted via a post-commit hook and printed exactly once. -/
theorem scanFolder_move_log_not_postCommit :
    Effect.log LogMode.postCommitHook (LogMsg.folderMoved "/old" "/new") ∉
      (scanFolder c8Env c8File).2 ∧
    (observedLogsWithRetries (scanFolder c8Env c8File).2 1).count
      (LogMsg.folderMoved "/old" "/new") = 2 := by
  exact ⟨by decide, by decide⟩

theorem scanFolder_move_log_inline_witness :
    scanFolder c8Env c8File =
      (Except.ok (movedFolderRow c8Env c8File c8Old),
        [Effect.detectFolderMoveProbe c8File.path,
         Effect.log LogMode.inline (LogMsg.folderMoved c8Old.path c8File.path),
         Effect.updateFolder (movedFolderRow c8Env c8File c8Old),
         Effect.fixSubFolderHierarchy c8Old.path c8File.path]) :=
  (scanFolder_move_log_inline c8Env c8File c8Old rfl rfl rfl).1
